import Mathlib

/-
  Verification of the anodization cellular-automaton repository
  (Tema1-Introduccion: anodización.py and final.py).

  The lattice states, the per-site CUDA kernel of anodización.py and the
  per-pair rule functions of final.py are embedded shallowly.  Machine
  integers are modelled as ℕ/ℤ with explicit `% 2 ^ 31` where the source
  masks with 0x7fffffff, and the float32 probability parameters are
  modelled as exact rationals.  The unsynchronized parallel writes of the
  GPU kernel are modelled as an explicit write list per site evaluation;
  a full step commits the write lists of all sites in lexicographic site
  order (last write wins), which serializes the source's racy commit.
  Alternative schedules of the same racy commit are analysed as
  permutations of the step's write list: the committed buffer is proved
  schedule-independent exactly when the writes are pairwise cell-disjoint,
  and schedule-dependent otherwise.
-/

/-- Cell states of the automaton, from the constant block of
anodización.py (`M = 0, OX = 1, EF = 2, A = 3, S = 4`); final.py uses the
same five encodings. -/
inductive CellState where
  | M
  | OX
  | EF
  | A
  | S
deriving DecidableEq, Repr

/-- A lattice buffer: the cell state at coordinates (x, y, z).  The source
stores the buffer as a dense `(NZ, NY, NX)` array indexed `grid[z, y, x]`;
here it is a total function on coordinates, read only at in-range indices. -/
abbrev Grid := ℕ → ℕ → ℕ → CellState

/-- The five probability parameters passed to `reaction_kernel` as
`params[0] .. params[4]` in anodización.py. -/
structure Params where
  pDissolution : ℚ
  pAnion : ℚ
  pFieldGen : ℚ
  pDiffusion : ℚ
  pBond : ℚ

/-- The module-level parameter values of anodización.py:
`P_DISSOLUTION = 0.15`, `P_ANION = 0.5`, `P_EF_GEN = 0.8`, `P_DIFF = 1.0`,
`P_BOND = 0.1`. -/
def params_anod : Params := ⟨mkRat 15 100, mkRat 5 10, mkRat 8 10, 1, mkRat 1 10⟩

/-- The 26 Moore offsets of anodización.py's `moore_neighborhood`, listed
in the generation order of its comprehension (`dx` outer, `dy`, `dz`
inner, skipping the origin).  The stored tuples are `(dx, dy, dz)`, but
the kernel unpacks them as `dz, dy, dx = moore_neighborhood[idx]`, so the
first component is used as the z offset and the third as the x offset;
all uses below follow that unpacking. -/
def moore_neighborhood : List (ℤ × ℤ × ℤ) :=
  [(-1,-1,-1), (-1,-1,0), (-1,-1,1), (-1,0,-1), (-1,0,0), (-1,0,1),
   (-1,1,-1), (-1,1,0), (-1,1,1),
   (0,-1,-1), (0,-1,0), (0,-1,1), (0,0,-1), (0,0,1), (0,1,-1), (0,1,0), (0,1,1),
   (1,-1,-1), (1,-1,0), (1,-1,1), (1,0,-1), (1,0,0), (1,0,1),
   (1,1,-1), (1,1,0), (1,1,1)]

/-- The per-site pseudo-random value of `reaction_kernel`:
`seed = x*137 + y*149 + z*101 + step + rand_seed;`
`random_val = ((seed * 1103515245) + 12345) & 0x7fffffff`.  The mask with
`0x7fffffff` keeps the low 31 bits, i.e. reduction modulo `2 ^ 31`. -/
def random_val (x y z step randSeed : ℕ) : ℕ :=
  ((x * 137 + y * 149 + z * 101 + step + randSeed) * 1103515245 + 12345) % 2 ^ 31

/-- The kernel's draw `rand = (random_val % 10000) / 10000.0`, as an exact
rational. -/
def rand_draw (x y z step randSeed : ℕ) : ℚ :=
  mkRat (random_val x y z step randSeed % 10000 : ℕ) 10000

/-- The kernel's neighbor selection `neighbor_idx = random_val % 26`. -/
def neighbor_idx (x y z step randSeed : ℕ) : ℕ :=
  random_val x y z step randSeed % 26

/-- Boundary resolution of the chosen neighbor, from `reaction_kernel`:
`nz, ny, nx = z + dz, y + dy, x + dx`; if `nz < 0 or nz >= NZ` the kernel
returns (the interaction is skipped), otherwise `nx %= NX` and `ny %= NY`
wrap periodically.  Integer `%` here is Python's floor mod, which for a
positive modulus agrees with `Int.emod`. -/
def resolve_neighbor (NX NY NZ : ℕ) (x y z idx : ℕ) : Option (ℕ × ℕ × ℕ) :=
  let t := moore_neighborhood.getD idx (0, 0, 0)
  let nzi : ℤ := (z : ℤ) + t.1
  if nzi < 0 ∨ (NZ : ℤ) ≤ nzi then none
  else some ((((x : ℤ) + t.2.2) % (NX : ℤ)).toNat, (((y : ℤ) + t.2.1) % (NY : ℤ)).toNat,
    nzi.toNat)

/-- Whether a state counts as oxide-like for the reorganization rule:
the kernel tests membership in `(OX, EF, A)`. -/
def is_oxide_like : CellState → Bool
  | .OX => true
  | .EF => true
  | .A => true
  | _ => false

/-- The 26-neighbor oxide-like count of the reorganization block of
`reaction_kernel`: for each Moore offset, `z2 = z + dz2`,
`y2 = (y + dy2) % NY`, `x2 = (x + dx2) % NX`, counting the cells with
`0 <= z2 < NZ` whose state is in `(OX, EF, A)`.  The scan reads the
current buffer only. -/
def count_oxide_like (NX NY NZ : ℕ) (g : Grid) (x y z : ℕ) : ℕ :=
  (moore_neighborhood.filter fun t =>
    let z2 : ℤ := (z : ℤ) + t.1
    decide (0 ≤ z2 ∧ z2 < (NZ : ℤ)) &&
      is_oxide_like (g (((x : ℤ) + t.2.2) % (NX : ℤ)).toNat
        (((y : ℤ) + t.2.1) % (NY : ℤ)).toNat z2.toNat)).length

/-- The probabilistic swap threshold of the reorganization rule:
`P_swap = params[4] ** N_diff` in anodización.py. -/
def swap_threshold (pBond : ℚ) (n : ℕ) : ℚ := pBond ^ n

/-- The ordered rule chain of `reaction_kernel` (lines 110-186 of
anodización.py), refactored as a pair-outcome function: given the two
states read from the current buffer, the two oxide-like neighbor counts
(used only by the reorganization rule) and the draw, it returns which of
the two cells are written and with what state (`none` = that cell is not
written).  The `else if` chain below mirrors the kernel's elif chain in
source order. -/
def reaction_rules (p : Params) (site neighbor : CellState) (cs cn : ℕ) (rand : ℚ) :
    Option CellState × Option CellState :=
  if (site = .M ∧ neighbor = .S) ∨ (site = .S ∧ neighbor = .M) then
    (some .OX, some .OX)
  else if site = .EF ∧ neighbor = .S ∧ rand < p.pDissolution then
    (some .S, none)
  else if site = .EF ∧ neighbor = .S ∧ rand < p.pAnion then
    (some .A, none)
  else if site = .M ∧ neighbor = .OX ∧ rand < p.pFieldGen then
    (none, some .EF)
  else if site = .M ∧ neighbor = .A then
    (some .OX, some .OX)
  else if ((site = .EF ∧ neighbor = .OX) ∨ (site = .OX ∧ neighbor = .EF)) ∧
      rand < p.pDiffusion then
    (some neighbor, some site)
  else if ((site = .EF ∧ neighbor = .A) ∨ (site = .A ∧ neighbor = .EF)) ∧
      rand < p.pDiffusion then
    (some neighbor, some site)
  else if (site = .OX ∧ neighbor = .S) ∨ (site = .A ∧ neighbor = .S) ∨
      (site = .S ∧ neighbor = .OX) ∨ (site = .S ∧ neighbor = .A) then
    if (site = .S ∧ cn < cs) ∨ (neighbor = .S ∧ cs < cn) then
      (some neighbor, some site)
    else if rand < swap_threshold p.pBond ((cs : ℤ) - cn).natAbs then
      (some neighbor, some site)
    else (none, none)
  else (none, none)

/-- Converts a pair outcome into the kernel's write list, in the order the
kernel writes: first `new_grid[z, y, x]`, then `new_grid[nz, ny, nx]`. -/
def outcome_writes (c1 c2 : ℕ × ℕ × ℕ) :
    Option CellState × Option CellState → List ((ℕ × ℕ × ℕ) × CellState)
  | (o1, o2) =>
    (match o1 with
     | some s => [(c1, s)]
     | none => []) ++
    (match o2 with
     | some s => [(c2, s)]
     | none => [])

/-- One site evaluation of `reaction_kernel`: the guard
`x >= NX or y >= NY or z >= NZ or z == 0 or z == NZ-1` skips the site;
otherwise the kernel draws `random_val`, selects and resolves the Moore
neighbor, and runs the rule chain, producing the writes it commits into
the `new_grid` buffer. -/
def reaction_kernel (NX NY NZ : ℕ) (g : Grid) (p : Params) (step randSeed x y z : ℕ) :
    List ((ℕ × ℕ × ℕ) × CellState) :=
  if NX ≤ x ∨ NY ≤ y ∨ NZ ≤ z ∨ z = 0 ∨ z = NZ - 1 then []
  else
    match resolve_neighbor NX NY NZ x y z (neighbor_idx x y z step randSeed) with
    | none => []
    | some (nx, ny, nz) =>
      outcome_writes (x, y, z) (nx, ny, nz)
        (reaction_rules p (g x y z) (g nx ny nz)
          (count_oxide_like NX NY NZ g x y z)
          (count_oxide_like NX NY NZ g nx ny nz)
          (rand_draw x y z step randSeed))

/-- All lattice sites, in lexicographic order; this fixes the commit order
used to serialize the kernel's unsynchronized parallel writes. -/
def all_sites (NX NY NZ : ℕ) : List (ℕ × ℕ × ℕ) :=
  (List.range NX).flatMap fun x =>
    (List.range NY).flatMap fun y =>
      (List.range NZ).map fun z => (x, y, z)

/-- Commits a write list on top of a buffer, later writes overriding
earlier ones.  `update_simulation` first copies the current buffer into
`new_grid`, so unwritten cells keep their current state. -/
def commit_writes (g : Grid) (ws : List ((ℕ × ℕ × ℕ) × CellState)) : Grid :=
  ws.foldl (fun acc w => fun x y z =>
    if x = w.1.1 ∧ y = w.1.2.1 ∧ z = w.1.2.2 then w.2 else acc x y z) g

/-- One simulation step (`update_simulation` launching `reaction_kernel`
over the whole lattice, then swapping buffers): every site is evaluated
against the same current buffer `g`, and all writes are committed in
lexicographic site order. -/
def step_grid (NX NY NZ : ℕ) (g : Grid) (p : Params) (step randSeed : ℕ) : Grid :=
  commit_writes g ((all_sites NX NY NZ).flatMap fun c =>
    reaction_kernel NX NY NZ g p step randSeed c.1 c.2.1 c.2.2)

/-- Runs `n` consecutive steps starting at step index `s0` (the driver
loop increments `self.step` once per kernel launch). -/
def run_from (NX NY NZ : ℕ) (p : Params) (randSeed : ℕ) : ℕ → ℕ → Grid → Grid
  | _, 0, g => g
  | s0, n + 1, g => run_from NX NY NZ p randSeed (s0 + 1) n (step_grid NX NY NZ g p s0 randSeed)

/-- Number of lattice cells in a given state, as in final.py's
`count_states` (`np.sum(lattice == state)` over the full array). -/
def count_states (NX NY NZ : ℕ) (g : Grid) (s : CellState) : ℕ :=
  ((all_sites NX NY NZ).filter fun c => decide (g c.1 c.2.1 c.2.2 = s)).length

/-- Whether some write in a write list targets the cell `c`. -/
def writes_cell (ws : List ((ℕ × ℕ × ℕ) × CellState)) (c : ℕ × ℕ × ℕ) : Bool :=
  ws.any fun w => decide (w.1 = c)

/- ----- final.py ----- -/

/-- final.py's `P_REACTION = 0.2`, the gate applied to the whole reaction
block of `apply_rules`. -/
def P_REACTION : ℚ := mkRat 2 10

/-- final.py's `P_DISSOLUTION = 0.1`. -/
def final_p_dissolution : ℚ := mkRat 1 10

/-- final.py's `P_ANION = 0.1`. -/
def final_p_anion : ℚ := mkRat 1 10

/-- final.py's `P_BOND = 0.2`. -/
def final_p_bond : ℚ := mkRat 2 10

/-- The diffusion-like block of final.py's `apply_rules` (reached whenever
no reaction rule returned), including its no-change fall-through. -/
def diffusion_rules (s1 s2 : CellState) : CellState × CellState :=
  if (s1 = .EF ∧ s2 = .OX) ∨ (s2 = .EF ∧ s1 = .OX) then (.OX, .EF)
  else if (s1 = .EF ∧ s2 = .A) ∨ (s2 = .EF ∧ s1 = .A) then (.A, .EF)
  else if (s1 = .S ∧ s2 = .OX) ∨ (s2 = .S ∧ s1 = .OX) then (.OX, .S)
  else if (s1 = .S ∧ s2 = .A) ∨ (s2 = .S ∧ s1 = .A) then (.A, .S)
  else (s1, s2)

/-- final.py's `apply_rules`.  The three `random.random()` calls it can
make are passed explicitly, in consumption order: `d1` is the
`P_REACTION` gate draw, `d2` the dissolution draw, `d3` the anion draw.
Inside the gate the source uses sequential `if` statements with `return`,
so an `{EF, S}` pair whose two sub-draws both fail falls through to the
remaining reaction checks (which cannot match it) and then to the
diffusion block; the flattened chain below is condition-for-condition
equivalent to that control flow. -/
def apply_rules (s1 s2 : CellState) (d1 d2 d3 : ℚ) : CellState × CellState :=
  if d1 < P_REACTION then
    if (s1 = .M ∧ s2 = .S) ∨ (s2 = .M ∧ s1 = .S) then (.OX, .OX)
    else if ((s1 = .EF ∧ s2 = .S) ∨ (s2 = .EF ∧ s1 = .S)) ∧ d2 < final_p_dissolution then
      (.S, .S)
    else if ((s1 = .EF ∧ s2 = .S) ∨ (s2 = .EF ∧ s1 = .S)) ∧ d3 < final_p_anion then
      (.A, .S)
    else if (s1 = .M ∧ s2 = .A) ∨ (s2 = .M ∧ s1 = .A) then (.OX, .OX)
    else if (s1 = .M ∧ s2 = .OX) ∨ (s2 = .M ∧ s1 = .OX) then (.M, .EF)
    else diffusion_rules s1 s2
  else diffusion_rules s1 s2

/-- final.py's `get_moore_neighborhood(i, j, k, L)`.  The offsets are
enumerated `di` outer, `dj`, `dk` inner, skipping the origin (the same
26 triples as `moore_neighborhood`, here used in their written order
`(di, dj, dk)`).  The source computes
`ni, nj, nk = (i + di) % L, (j + dj) % L, (k + dk) % L` — wrapping all
three axes — and then tests `if nk >= 0 and nk < L`, a test that is
always true after the modulo; both the wrap of `nk` and the dead test are
kept faithfully. -/
def get_moore_neighborhood (i j k L : ℕ) : List (ℕ × ℕ × ℕ) :=
  moore_neighborhood.filterMap fun t =>
    let ni := (((i : ℤ) + t.1) % (L : ℤ)).toNat
    let nj := (((j : ℤ) + t.2.1) % (L : ℤ)).toNat
    let nk := (((k : ℤ) + t.2.2) % (L : ℤ)).toNat
    if 0 ≤ (nk : ℤ) ∧ (nk : ℤ) < (L : ℤ) then some (ni, nj, nk) else none

/-- final.py's `surface_reorganization`, with the two oxide-like neighbor
counts (`count_oxide_neighbors` of both cells) and the swap draw passed
explicitly.  The source computes
`N = n1 - n2 if state1 in [OX, A] else n2 - n1` and swaps when
`N < 0 or random.random() < P_BOND ** max(N, 0)`. -/
def surface_reorganization (s1 s2 : CellState) (n1 n2 : ℕ) (d : ℚ) :
    CellState × CellState :=
  if (s1 = .OX ∨ s1 = .A) ∧ s2 = .S ∨ (s2 = .OX ∨ s2 = .A) ∧ s1 = .S then
    let N : ℤ := if s1 = .OX ∨ s1 = .A then (n1 : ℤ) - n2 else (n2 : ℤ) - n1
    if N < 0 ∨ d < final_p_bond ^ (max N 0).toNat then (s2, s1) else (s1, s2)
  else (s1, s2)

/-- Number of Metal entries in a state pair. -/
def metal_in_pair (t : CellState × CellState) : ℕ :=
  (if t.1 = .M then 1 else 0) + (if t.2 = .M then 1 else 0)

/- ----- concrete configurations used by the claims ----- -/

/-- The C9 test scenario lattice: a 3×3×3 grid with a single Metal cell at
(1,1,1), Oxide at (1,1,2), and Solvent everywhere else. -/
def grid_scenario : Grid := fun x y z =>
  if x = 1 ∧ y = 1 ∧ z = 1 then .M
  else if x = 1 ∧ y = 1 ∧ z = 2 then .OX
  else .S

/-- The C9 scenario parameters: `p_field_gen = 1.0`, the remaining
parameters at anodización.py's module defaults. -/
def params_scenario : Params := ⟨mkRat 15 100, mkRat 5 10, 1, 1, mkRat 1 10⟩

/-- A 3×3×3 lattice with a single Metal cell at (0,0,1) and Solvent
everywhere else, used to exhibit a write conflict of the kernel. -/
def grid_conflict : Grid := fun x y z =>
  if x = 0 ∧ y = 0 ∧ z = 1 then .M else .S

/-- The write list of one step of the C9 scenario at `rand_seed = 49`:
all site evaluations of `reaction_kernel` against the current buffer.
The kernel commits these writes with no coordination, so any permutation
of this list is an admissible commit schedule of the same step. -/
def scenario_writes : List ((ℕ × ℕ × ℕ) × CellState) :=
  (all_sites 3 3 3).flatMap fun c =>
    reaction_kernel 3 3 3 grid_scenario params_scenario 0 49 c.1 c.2.1 c.2.2

/-- The write list of one step on `grid_conflict` at `rand_seed = 0`: a
seed at which no two site evaluations write the same cell (only the Metal
cell's passivation fires, writing the two distinct cells (0,0,1) and
(1,1,1)), so the step's writes are pairwise cell-disjoint. -/
def conflict_free_writes : List ((ℕ × ℕ × ℕ) × CellState) :=
  (all_sites 3 3 3).flatMap fun c =>
    reaction_kernel 3 3 3 grid_conflict params_anod 0 0 c.1 c.2.1 c.2.2

/- ----- theorems ----- -/

/-- Claim C1, counterexample: with anodización.py's own parameters
(`p_dissolution = 0.15`, `p_anion = 0.5`) and the draw `rand = 0.6`, the
draw lies in the window `p_dissolution ≤ rand < p_dissolution + p_anion`
claimed for rule #3, yet the kernel's rule chain fires nothing for the
`{EF, S}` pair (0.6 is not below `params[1] = p_anion`), leaving both
cells unwritten. -/
theorem C1_counterexample :
    (params_anod.pDissolution ≤ mkRat 6 10 ∧
      (mkRat 6 10 : ℚ) < params_anod.pDissolution + params_anod.pAnion) ∧
    reaction_rules params_anod .EF .S 0 0 (mkRat 6 10) = (none, none) :=
  ⟨⟨by decide, by norm_num [params_anod, Rat.mkRat_eq_div]⟩, by decide⟩

/-- Claim C1 (amended): for an `{ElectricField, Solvent}` pair evaluated
with a single draw (ElectricField as the primary site), rule #3 fires —
i.e. the kernel writes Anion to the ElectricField side and nothing to the
Solvent side — exactly when `p_dissolution ≤ rand < p_anion` (not
`p_dissolution + p_anion`), and rules #2 and #3 are mutually exclusive on
the same draw. -/
theorem C1_anion_window (p : Params) (cs cn : ℕ) (rand : ℚ) :
    (reaction_rules p .EF .S cs cn rand = (some .A, none) ↔
      p.pDissolution ≤ rand ∧ rand < p.pAnion) ∧
    ¬(reaction_rules p .EF .S cs cn rand = (some .S, none) ∧
      reaction_rules p .EF .S cs cn rand = (some .A, none)) := by
  have hred : reaction_rules p .EF .S cs cn rand =
      if rand < p.pDissolution then (some .S, none)
      else if rand < p.pAnion then (some .A, none)
      else (none, none) := by
    simp [reaction_rules]
  rw [hred]
  constructor
  · split_ifs with h1 h2
    · simp [not_le.mpr h1]
    · simp [not_lt.mp h1, h2]
    · simp [h2]
  · split_ifs <;> simp

/-- Claim C2, counterexample: an `{Oxide, Solvent}` pair where the
Solvent-side site has 0 oxide-like neighbors — strictly fewer than the
Oxide side's 2 — so the claim predicts a forced (draw-independent) swap;
with anodización.py's `p_bond = 0.1` and the draw 0.99 the kernel instead
takes the probabilistic branch (`0.99 ≥ 0.1 ^ 2`) and writes nothing. -/
theorem C2_counterexample :
    (0 : ℕ) < 2 ∧ reaction_rules params_anod .OX .S 2 0 (mkRat 99 100) = (none, none) :=
  ⟨by decide, by decide⟩

/-- Claim C2 (amended): for every pair matching the reorganization guard
(`{Oxide-or-Anion, Solvent}` in either orientation), the swap is forced
regardless of the draw exactly when the Solvent-side site has strictly
MORE oxide-like neighbors than the other side; otherwise the swap happens
exactly when the draw falls below `p_bond ^ N` with `N = |n_a − n_b|`. -/
theorem C2_reorganization (p : Params) (site neighbor : CellState) (cs cn : ℕ) (rand : ℚ)
    (hpair : (site = .OX ∧ neighbor = .S) ∨ (site = .A ∧ neighbor = .S) ∨
      (site = .S ∧ neighbor = .OX) ∨ (site = .S ∧ neighbor = .A)) :
    (((site = .S ∧ cn < cs) ∨ (neighbor = .S ∧ cs < cn)) →
      reaction_rules p site neighbor cs cn rand = (some neighbor, some site)) ∧
    (¬((site = .S ∧ cn < cs) ∨ (neighbor = .S ∧ cs < cn)) →
      (reaction_rules p site neighbor cs cn rand = (some neighbor, some site) ↔
        rand < swap_threshold p.pBond ((cs : ℤ) - cn).natAbs)) := by
  rcases hpair with ⟨h1, h2⟩ | ⟨h1, h2⟩ | ⟨h1, h2⟩ | ⟨h1, h2⟩ <;> subst h1 <;> subst h2 <;>
    refine ⟨fun hf => ?_, fun hnf => ?_⟩ <;>
    simp only [reaction_rules] <;> simp_all

/-- Claim C2, witness for the amended theorem at a concrete instance:
a `{Solvent, Oxide}` pair with counts 3 and 1 (Solvent side strictly
greater), where the swap is forced. -/
theorem C2_reorganization_witness :
    ((CellState.S = CellState.OX ∧ CellState.OX = CellState.S) ∨
      (CellState.S = CellState.A ∧ CellState.OX = CellState.S) ∨
      (CellState.S = CellState.S ∧ CellState.OX = CellState.OX) ∨
      (CellState.S = CellState.S ∧ CellState.OX = CellState.A)) ∧
    ((((CellState.S = CellState.S ∧ 1 < 3) ∨ (CellState.OX = CellState.S ∧ 3 < 1)) →
      reaction_rules params_anod .S .OX 3 1 (mkRat 1 2) = (some .OX, some .S)) ∧
    (¬(((CellState.S = CellState.S ∧ 1 < 3) ∨ (CellState.OX = CellState.S ∧ 3 < 1))) →
      (reaction_rules params_anod .S .OX 3 1 (mkRat 1 2) = (some .OX, some .S) ↔
        mkRat 1 2 < swap_threshold params_anod.pBond ((3 : ℤ) - 1).natAbs))) :=
  ⟨by decide, C2_reorganization params_anod .S .OX 3 1 (mkRat 1 2) (by decide)⟩

/-- Claim C3, counterexample: at `p_bond = 1/2 ∈ (0,1)` and `N = 0` the
kernel's swap threshold `p_bond ** N` equals 1, not `p_bond`: identical
neighborhoods swap unconditionally, not with probability `p_bond`. -/
theorem C3_counterexample :
    ((0 : ℚ) < mkRat 1 2 ∧ (mkRat 1 2 : ℚ) < 1) ∧
    swap_threshold (mkRat 1 2) 0 ≠ mkRat 1 2 :=
  ⟨⟨by decide, by decide⟩, by decide⟩

/-- Claim C3 (amended): for fixed `p_bond ∈ (0,1)` the reorganization swap
threshold `p_bond ^ N` is non-increasing in `N = |n_a − n_b|`; it equals 1
at `N = 0` and equals `p_bond` exactly when `N = 1`. -/
theorem C3_swap_threshold (p : ℚ) (hp0 : 0 < p) (hp1 : p < 1) :
    (∀ m n : ℕ, m ≤ n → swap_threshold p n ≤ swap_threshold p m) ∧
    swap_threshold p 0 = 1 ∧
    (∀ n : ℕ, swap_threshold p n = p ↔ n = 1) := by
  refine ⟨fun m n h => pow_le_pow_of_le_one hp0.le hp1.le h, pow_zero p, fun n => ?_⟩
  constructor
  · intro h
    match n with
    | 0 =>
      rw [swap_threshold, pow_zero] at h
      exact absurd h.symm (ne_of_lt hp1)
    | 1 => rfl
    | k + 2 =>
      have hlt : p ^ (k + 2) < p ^ 1 :=
        pow_lt_pow_right_of_lt_one₀ hp0 hp1 (by omega)
      rw [pow_one] at hlt
      exact absurd h (ne_of_lt hlt)
  · rintro rfl
    rw [swap_threshold, pow_one]

/-- Claim C3, witness for the amended theorem at `p_bond = 1/10`
(anodización.py's module value). -/
theorem C3_swap_threshold_witness :
    ((0 : ℚ) < mkRat 1 10 ∧ (mkRat 1 10 : ℚ) < 1) ∧
    ((∀ m n : ℕ, m ≤ n → swap_threshold (mkRat 1 10) n ≤ swap_threshold (mkRat 1 10) m) ∧
      swap_threshold (mkRat 1 10) 0 = 1 ∧
      (∀ n : ℕ, swap_threshold (mkRat 1 10) n = mkRat 1 10 ↔ n = 1)) :=
  ⟨⟨by decide, by decide⟩, C3_swap_threshold (mkRat 1 10) (by decide) (by decide)⟩

/-- Claim C4: on a 3×3×3 lattice holding a single Metal cell at (0,0,1)
(Solvent elsewhere), at step 0 with `rand_seed = 5`, the kernel evaluation
of site (0,0,1) and the evaluation of the distinct site (1,1,1) both
commit a write to cell (0,0,1) — two committed writes to one cell in the
same step — and the evaluation of (0,0,1) itself commits two writes, not
one. -/
theorem C4_write_conflict :
    writes_cell (reaction_kernel 3 3 3 grid_conflict params_anod 0 5 0 0 1) (0, 0, 1) = true ∧
    writes_cell (reaction_kernel 3 3 3 grid_conflict params_anod 0 5 1 1 1) (0, 0, 1) = true ∧
    ((0, 0, 1) : ℕ × ℕ × ℕ) ≠ (1, 1, 1) ∧
    (reaction_kernel 3 3 3 grid_conflict params_anod 0 5 0 0 1).length = 2 :=
  ⟨by decide, by decide, by decide, by decide⟩

/-- Claim C6: anodización.py's resolution wraps x periodically at the
extreme (`x = Nx−1`, `dx = +1` resolves to `x = 0`; offset index 13 is
`(dz, dy, dx) = (0, 0, +1)` under the kernel's unpacking), but final.py's
`get_moore_neighborhood` wraps the z axis too: from (0,0,0) with
`dk = −1` on a 20-lattice it returns the neighbor (0,0,19) instead of
skipping the interaction, contradicting its own `Fixed boundaries in z`
comment (its range test on `nk` is dead code after `% L`). -/
theorem C6_boundary :
    resolve_neighbor 3 3 3 2 0 1 13 = some (0, 0, 1) ∧
    (0, 0, 19) ∈ get_moore_neighborhood 0 0 0 20 :=
  ⟨by decide, by decide⟩

/-- Claim C7, counterexample: in final.py a selected `{Metal, Solvent}`
pair does NOT become `{Oxide, Oxide}` when the reaction-gate draw fails:
with gate draw `0.5 ≥ P_REACTION = 0.2`, `apply_rules` returns the pair
unchanged. -/
theorem C7_counterexample :
    P_REACTION ≤ mkRat 1 2 ∧ apply_rules .M .S (mkRat 1 2) 0 0 = (.M, .S) :=
  ⟨by decide, by decide⟩

/-- Claim C7 (amended): in anodización.py's kernel, a selected
`{Metal, Solvent}` pair always becomes `{Oxide, Oxide}` regardless of the
draw (either orientation); in final.py this happens only when the
reaction-gate draw is below `P_REACTION`. -/
theorem C7_passivation :
    (∀ (p : Params) (cs cn : ℕ) (rand : ℚ),
      reaction_rules p .M .S cs cn rand = (some .OX, some .OX) ∧
      reaction_rules p .S .M cs cn rand = (some .OX, some .OX)) ∧
    (∀ (s1 s2 : CellState) (d1 d2 d3 : ℚ), d1 < P_REACTION →
      (s1 = .M ∧ s2 = .S) ∨ (s1 = .S ∧ s2 = .M) →
      apply_rules s1 s2 d1 d2 d3 = (.OX, .OX)) := by
  constructor
  · intro p cs cn rand
    constructor <;> simp [reaction_rules]
  · rintro s1 s2 d1 d2 d3 hgate (⟨rfl, rfl⟩ | ⟨rfl, rfl⟩) <;> simp [apply_rules, hgate]

/-- Claim C7, witness: the kernel's passivation at a concrete draw, and
final.py's passivation at a passing gate draw `0.1 < 0.2`. -/
theorem C7_passivation_witness :
    (reaction_rules params_anod .M .S 0 0 (mkRat 99 100) = (some .OX, some .OX)) ∧
    ((mkRat 1 10 : ℚ) < P_REACTION ∧ apply_rules .M .S (mkRat 1 10) 0 0 = (.OX, .OX)) :=
  ⟨(C7_passivation.1 params_anod 0 0 (mkRat 99 100)).1,
   by decide,
   C7_passivation.2 .M .S (mkRat 1 10) 0 0 (by decide) (Or.inl ⟨rfl, rfl⟩)⟩

/-- Claim C9, counterexample: in the 3×3×3 scenario (Metal at (1,1,1),
Oxide at (1,1,2), Solvent elsewhere, `p_field_gen = 1`), with
`rand_seed = 0` the Metal cell's draw does not select the Oxide cell
(its neighbor index is not 21 = offset (0,0,+1)), and after one step site
(1,1,2) is still Oxide, not ElectricField. -/
theorem C9_counterexample :
    step_grid 3 3 3 grid_scenario params_scenario 0 0 1 1 2 = .OX ∧
    CellState.OX ≠ CellState.EF :=
  ⟨by decide, by decide⟩

/-- Claim C9 (amended): the scenario outcome depends on the random seed
(and, because of the kernel's unsynchronized writes, on the commit order,
here serialized in lexicographic site order): for seeds whose draw at the
Metal cell selects Moore offset index 21 = (0,0,+1) — e.g.
`rand_seed = 49` — site (1,1,2) is ElectricField after one step. -/
theorem C9_field_generation :
    step_grid 3 3 3 grid_scenario params_scenario 0 49 1 1 2 = .EF ∧
    neighbor_idx 1 1 1 0 49 = 21 :=
  ⟨by decide, by decide⟩

/-- A cell not targeted by any write of a list keeps its current state
through the commit. -/
theorem commit_writes_not_mem (ws : List ((ℕ × ℕ × ℕ) × CellState)) :
    ∀ (g : Grid) (x y z : ℕ), (x, y, z) ∉ ws.map Prod.fst →
      commit_writes g ws x y z = g x y z := by
  induction ws with
  | nil => intro g x y z _; rfl
  | cons w t ih =>
    intro g x y z hmem
    simp only [List.map_cons, List.mem_cons, not_or] at hmem
    have hstep : commit_writes g (w :: t) = commit_writes
        (fun a b c => if a = w.1.1 ∧ b = w.1.2.1 ∧ c = w.1.2.2 then w.2 else g a b c) t := rfl
    rw [hstep, ih _ x y z hmem.2]
    have hne : ¬(x = w.1.1 ∧ y = w.1.2.1 ∧ z = w.1.2.2) := by
      rintro ⟨rfl, rfl, rfl⟩
      exact hmem.1 rfl
    rw [if_neg hne]

/-- When the write cells of a list are pairwise distinct, the committed
value at a written cell is that cell's unique write, whatever the commit
order around it. -/
theorem commit_writes_mem_nodup (ws : List ((ℕ × ℕ × ℕ) × CellState)) :
    ∀ (g : Grid) (w : (ℕ × ℕ × ℕ) × CellState), w ∈ ws → (ws.map Prod.fst).Nodup →
      commit_writes g ws w.1.1 w.1.2.1 w.1.2.2 = w.2 := by
  induction ws with
  | nil => intro g w hw _; exact absurd hw (List.not_mem_nil _)
  | cons u t ih =>
    intro g w hw hnodup
    simp only [List.map_cons, List.nodup_cons] at hnodup
    have hstep : commit_writes g (u :: t) = commit_writes
        (fun a b c => if a = u.1.1 ∧ b = u.1.2.1 ∧ c = u.1.2.2 then u.2 else g a b c) t := rfl
    rw [hstep]
    rcases List.mem_cons.mp hw with rfl | hwt
    · rw [commit_writes_not_mem t _ w.1.1 w.1.2.1 w.1.2.2 hnodup.1]
      rw [if_pos ⟨rfl, rfl, rfl⟩]
    · exact ih _ w hwt hnodup.2

/-- Commit-order independence under a conflict discipline: two commit
schedules of the same write multiset produce the same buffer whenever the
write cells are pairwise distinct. -/
theorem commit_writes_perm (ws ws' : List ((ℕ × ℕ × ℕ) × CellState)) (hperm : ws.Perm ws')
    (hnodup : (ws.map Prod.fst).Nodup) (g : Grid) (x y z : ℕ) :
    commit_writes g ws x y z = commit_writes g ws' x y z := by
  have hnodup' : (ws'.map Prod.fst).Nodup := ((hperm.map Prod.fst).nodup_iff).mp hnodup
  by_cases hc : (x, y, z) ∈ ws.map Prod.fst
  · obtain ⟨w, hw, hfst⟩ := List.mem_map.mp hc
    have h1 := commit_writes_mem_nodup ws g w hw hnodup
    have h2 := commit_writes_mem_nodup ws' g w (hperm.mem_iff.mp hw) hnodup'
    obtain ⟨⟨wa, wb, wc⟩, wv⟩ := w
    simp only at h1 h2 hfst
    injection hfst with hx hyz
    injection hyz with hy hz
    subst hx; subst hy; subst hz
    rw [h1, h2]
  · have hc' : (x, y, z) ∉ ws'.map Prod.fst := fun hmem =>
      hc (((hperm.map Prod.fst).mem_iff).mpr hmem)
    rw [commit_writes_not_mem ws g x y z hc, commit_writes_not_mem ws' g x y z hc']

/-- Claim C5, counterexample: same seed, same configuration, same step
write multiset — different schedules, different buffers.  In the C9
scenario at `rand_seed = 49`, the evaluation of the Metal cell writes
ElectricField to (1,1,2) while a forced reorganization swap of another
site writes Solvent to the same cell; committing the step's writes in
lexicographic site order leaves (1,1,2) = ElectricField, committing the
same writes in the reversed order leaves (1,1,2) = Solvent.  The kernel
imposes no order on these writes, so bit-identical buffers across
independent runs are not guaranteed by seed and configuration alone. -/
theorem C5_counterexample :
    scenario_writes.reverse.Perm scenario_writes ∧
    commit_writes grid_scenario scenario_writes 1 1 2 = .EF ∧
    commit_writes grid_scenario scenario_writes.reverse 1 1 2 = .S ∧
    CellState.EF ≠ CellState.S :=
  ⟨List.reverse_perm _, by decide, by decide, by decide⟩

/-- Claim C5 (amended): run-to-run determinism holds only under a conflict
discipline, which the kernel lacks.  If no two site evaluations of a step
write the same cell, then the step's committed buffer is independent of
the commit schedule: committing any permutation of the step's write list
yields exactly `step_grid`'s result (the write list itself is determined
by current buffer, parameters, step index and seed — the draw is the pure
function `rand_draw` of cell coordinate, step index and seed, with values
in [0,1) and neighbor indices in [0,26)).  When writes conflict, the
outcome is schedule-dependent (the counterexample), and neither source
exposes the seed as configuration. -/
theorem C5_schedule_determinism :
    (∀ (NX NY NZ : ℕ) (g : Grid) (p : Params) (st sd : ℕ)
        (ws' : List ((ℕ × ℕ × ℕ) × CellState)) (x y z : ℕ),
      ((all_sites NX NY NZ).flatMap fun c =>
        reaction_kernel NX NY NZ g p st sd c.1 c.2.1 c.2.2).Perm ws' →
      (((all_sites NX NY NZ).flatMap fun c =>
        reaction_kernel NX NY NZ g p st sd c.1 c.2.1 c.2.2).map Prod.fst).Nodup →
      step_grid NX NY NZ g p st sd x y z = commit_writes g ws' x y z) ∧
    (∀ x y z step randSeed : ℕ,
      (0 : ℚ) ≤ rand_draw x y z step randSeed ∧ rand_draw x y z step randSeed < 1 ∧
      neighbor_idx x y z step randSeed < 26) := by
  constructor
  · intro NX NY NZ g p st sd ws' x y z hperm hnodup
    exact commit_writes_perm _ ws' hperm hnodup g x y z
  · intro x y z step randSeed
    have hlt : random_val x y z step randSeed % 10000 < 10000 :=
      Nat.mod_lt _ (by norm_num)
    unfold rand_draw
    rw [Rat.mkRat_eq_div]
    refine ⟨?_, ?_, Nat.mod_lt _ (by norm_num)⟩
    · exact div_nonneg (by exact_mod_cast Nat.zero_le _) (by norm_num)
    · rw [div_lt_one (by norm_num)]
      exact_mod_cast hlt

/-- Claim C5, witness: at `rand_seed = 0` on `grid_conflict` the step's
writes are pairwise cell-disjoint, and the reversed commit schedule
reproduces `step_grid`'s buffer at the written cell (0,0,1); plus the
draw bounds at a concrete coordinate. -/
theorem C5_schedule_determinism_witness :
    (conflict_free_writes.Perm conflict_free_writes.reverse ∧
      (conflict_free_writes.map Prod.fst).Nodup) ∧
    step_grid 3 3 3 grid_conflict params_anod 0 0 0 0 1 =
      commit_writes grid_conflict conflict_free_writes.reverse 0 0 1 ∧
    ((0 : ℚ) ≤ rand_draw 1 1 1 0 49 ∧ rand_draw 1 1 1 0 49 < 1 ∧
      neighbor_idx 1 1 1 0 49 < 26) :=
  ⟨⟨(List.reverse_perm _).symm, by decide⟩,
   C5_schedule_determinism.1 3 3 3 grid_conflict params_anod 0 0
     conflict_free_writes.reverse 0 0 1 (List.reverse_perm _).symm (by decide),
   C5_schedule_determinism.2 1 1 1 0 49⟩

/-- No branch of the kernel's rule chain ever writes the Metal state:
every written value is Oxide, Solvent, Anion, ElectricField, or one of
the two swapped states, which the guards constrain away from Metal. -/
theorem reaction_rules_no_metal (p : Params) (site neighbor : CellState) (cs cn : ℕ) (rand : ℚ) :
    (reaction_rules p site neighbor cs cn rand).1 ≠ some .M ∧
    (reaction_rules p site neighbor cs cn rand).2 ≠ some .M := by
  cases site <;> cases neighbor <;> simp [reaction_rules] <;> split_ifs <;> simp

/-- Any write in an outcome's write list carries one of the outcome's two
values. -/
theorem outcome_writes_value (c1 c2 : ℕ × ℕ × ℕ) (o : Option CellState × Option CellState)
    (w : (ℕ × ℕ × ℕ) × CellState) (hw : w ∈ outcome_writes c1 c2 o) :
    o.1 = some w.2 ∨ o.2 = some w.2 := by
  rcases o with ⟨o1, o2⟩
  rcases o1 with _ | s1 <;> rcases o2 with _ | s2 <;>
    simp only [outcome_writes, List.mem_append, List.mem_singleton, List.not_mem_nil] at hw <;>
    rcases hw with hw | hw <;> simp_all

/-- No write committed by a kernel site evaluation carries the Metal
state. -/
theorem reaction_kernel_no_metal (NX NY NZ : ℕ) (g : Grid) (p : Params)
    (step randSeed x y z : ℕ) (w : (ℕ × ℕ × ℕ) × CellState)
    (hw : w ∈ reaction_kernel NX NY NZ g p step randSeed x y z) : w.2 ≠ .M := by
  unfold reaction_kernel at hw
  split at hw
  · simp at hw
  · split at hw
    · simp at hw
    · rename_i nx ny nz heq
      have hval := outcome_writes_value _ _ _ _ hw
      have hnm := reaction_rules_no_metal p (g x y z) (g nx ny nz)
        (count_oxide_like NX NY NZ g x y z) (count_oxide_like NX NY NZ g nx ny nz)
        (rand_draw x y z step randSeed)
      intro hM
      rw [hM] at hval
      rcases hval with h | h
      · exact hnm.1 h
      · exact hnm.2 h

/-- If no write of a write list carries Metal, a cell that is Metal after
the commit was already Metal before it. -/
theorem commit_writes_metal (ws : List ((ℕ × ℕ × ℕ) × CellState)) :
    ∀ (g : Grid) (x y z : ℕ), (∀ w ∈ ws, w.2 ≠ .M) →
      commit_writes g ws x y z = .M → g x y z = .M := by
  induction ws with
  | nil => intro g x y z _ h; exact h
  | cons w t ih =>
    intro g x y z hval h
    have hstep : commit_writes g (w :: t) = commit_writes
        (fun a b c => if a = w.1.1 ∧ b = w.1.2.1 ∧ c = w.1.2.2 then w.2 else g a b c) t := rfl
    rw [hstep] at h
    have h2 := ih _ x y z (fun u hu => hval u (List.mem_cons_of_mem _ hu)) h
    by_cases hc : x = w.1.1 ∧ y = w.1.2.1 ∧ z = w.1.2.2
    · rw [if_pos hc] at h2
      exact absurd h2 (hval w (List.mem_cons_self _ _))
    · rwa [if_neg hc] at h2

/-- A cell that is Metal after a full simulation step was Metal in the
current buffer: no rule of the step produces Metal. -/
theorem step_grid_metal (NX NY NZ : ℕ) (g : Grid) (p : Params) (step randSeed x y z : ℕ)
    (h : step_grid NX NY NZ g p step randSeed x y z = .M) : g x y z = .M := by
  refine commit_writes_metal _ g x y z ?_ h
  intro w hw
  rw [List.mem_flatMap] at hw
  obtain ⟨c, _, hwc⟩ := hw
  exact reaction_kernel_no_metal NX NY NZ g p step randSeed c.1 c.2.1 c.2.2 w hwc

/-- Filtering by a pointwise weaker predicate keeps no fewer elements. -/
theorem filter_imp_length_le {α : Type} (P Q : α → Bool) (l : List α)
    (h : ∀ a, P a = true → Q a = true) :
    (l.filter P).length ≤ (l.filter Q).length := by
  induction l with
  | nil => simp
  | cons a t ih =>
    by_cases hp : P a = true
    · rw [List.filter_cons_of_pos hp, List.filter_cons_of_pos (h a hp)]
      simpa using ih
    · rw [List.filter_cons_of_neg (by simpa using hp)]
      cases hq : Q a
      · rw [List.filter_cons_of_neg (by simp [hq])]
        exact ih
      · rw [List.filter_cons_of_pos hq]
        exact ih.trans (Nat.le_succ _)

/-- Summing a constant over a list multiplies it by the length. -/
theorem sum_map_const_nat {α : Type} (l : List α) (k : ℕ) :
    (l.map fun _ => k).sum = l.length * k := by
  induction l with
  | nil => simp
  | cons a t ih => simp [ih, Nat.succ_mul]; omega

/-- The site list enumerates exactly `Nx * Ny * Nz` cells. -/
theorem length_all_sites (NX NY NZ : ℕ) : (all_sites NX NY NZ).length = NX * NY * NZ := by
  simp [all_sites, Function.comp_def, sum_map_const_nat, mul_assoc]

/-- Each cell holds exactly one of the five states, so the five per-state
filters partition any site list. -/
theorem filter_length_partition (g : Grid) (l : List (ℕ × ℕ × ℕ)) :
    (l.filter fun c => decide (g c.1 c.2.1 c.2.2 = .M)).length +
    (l.filter fun c => decide (g c.1 c.2.1 c.2.2 = .OX)).length +
    (l.filter fun c => decide (g c.1 c.2.1 c.2.2 = .EF)).length +
    (l.filter fun c => decide (g c.1 c.2.1 c.2.2 = .A)).length +
    (l.filter fun c => decide (g c.1 c.2.1 c.2.2 = .S)).length = l.length := by
  induction l with
  | nil => rfl
  | cons c t ih =>
    cases h : g c.1 c.2.1 c.2.2 <;> simp [List.filter_cons, h] <;> omega

/-- Claim C8: after any number of simulation steps, the per-state cell
counts over the five states sum to `Nx * Ny * Nz` — cells are never
created or destroyed, only their state value changes. -/
theorem C8_conservation (NX NY NZ : ℕ) (p : Params) (randSeed s0 n : ℕ) (g : Grid) :
    count_states NX NY NZ (run_from NX NY NZ p randSeed s0 n g) .M +
    count_states NX NY NZ (run_from NX NY NZ p randSeed s0 n g) .OX +
    count_states NX NY NZ (run_from NX NY NZ p randSeed s0 n g) .EF +
    count_states NX NY NZ (run_from NX NY NZ p randSeed s0 n g) .A +
    count_states NX NY NZ (run_from NX NY NZ p randSeed s0 n g) .S = NX * NY * NZ := by
  have h := filter_length_partition (run_from NX NY NZ p randSeed s0 n g) (all_sites NX NY NZ)
  rw [length_all_sites] at h
  simpa [count_states] using h

/-- One step never increases the number of Metal cells. -/
theorem count_states_metal_step_le (NX NY NZ : ℕ) (g : Grid) (p : Params) (st sd : ℕ) :
    count_states NX NY NZ (step_grid NX NY NZ g p st sd) .M ≤ count_states NX NY NZ g .M := by
  unfold count_states
  apply filter_imp_length_le
  intro c hc
  simp only [decide_eq_true_eq] at hc ⊢
  exact step_grid_metal NX NY NZ g p st sd c.1 c.2.1 c.2.2 hc

/-- Claim C10: the total number of Metal cells never increases across
steps of the kernel simulation (Metal is consumed by passivation and
anion oxidation and produced by no rule), and in final.py both
`apply_rules` and `surface_reorganization` preserve or reduce the number
of Metal cells in the evaluated pair. -/
theorem C10_metal_non_increasing :
    (∀ (NX NY NZ : ℕ) (p : Params) (randSeed s0 n : ℕ) (g : Grid),
      count_states NX NY NZ (run_from NX NY NZ p randSeed s0 n g) .M ≤
        count_states NX NY NZ g .M) ∧
    (∀ (s1 s2 : CellState) (d1 d2 d3 : ℚ),
      metal_in_pair (apply_rules s1 s2 d1 d2 d3) ≤ metal_in_pair (s1, s2)) ∧
    (∀ (s1 s2 : CellState) (n1 n2 : ℕ) (d : ℚ),
      metal_in_pair (surface_reorganization s1 s2 n1 n2 d) ≤ metal_in_pair (s1, s2)) := by
  refine ⟨?_, ?_, ?_⟩
  · intro NX NY NZ p randSeed s0 n g
    induction n generalizing s0 g with
    | zero => exact le_refl _
    | succ k ih =>
      exact (ih (s0 + 1) (step_grid NX NY NZ g p s0 randSeed)).trans
        (count_states_metal_step_le NX NY NZ g p s0 randSeed)
  · intro s1 s2 d1 d2 d3
    cases s1 <;> cases s2 <;>
      simp [apply_rules, diffusion_rules, metal_in_pair] <;> split_ifs <;> simp_all
  · intro s1 s2 n1 n2 d
    cases s1 <;> cases s2 <;>
      simp [surface_reorganization, metal_in_pair] <;> split_ifs <;> simp_all
